import Mathlib

/-!
# Verification of `rascal/utils.py`

A shallow embedding in Lean 4 of the data-wrangling utilities of the RASCAL
repository (`src/rascal/utils.py`), together with theorems settling the
specification claims about them.

Modelling conventions:
* Python floats are modelled by `ℚ` where only ordered-field arithmetic is
  involved, and by `ℝ` where transcendental functions (`exp`, `cos`, `sin`)
  appear; claims about those are stated "exact over the reals", as in the spec.
* Python exceptions are modelled by an explicit error type `PyError` and
  `Except`-valued functions.
* `pandas`/`xarray` indexing primitives used by the code (Python `list.index`,
  `min`, slices, integer `isel`) are modelled faithfully, including Python's
  exclusive slice upper bound and negative-index handling.
-/

namespace Rascal

/-- Python exception kinds raised by the modelled code. -/
inductive PyError where
  | attributeError (msg : String)
  | keyError (key : String)
  | valueError (msg : String)
  | indexError (msg : String)
  deriving DecidableEq, Repr

/-! ## Python `min` and `list.index`

`get_nearest_gridpoint` uses `min(...)` over a list and `list.index(...)`.
Python's `min` of a nonempty list folds keeping the current value on ties
(`b < a` test), and `list.index` returns the first position of the value. -/

/-- Python `min(list)`: `none` on the empty list (Python raises `ValueError`). -/
def pyMin : List ℚ → Option ℚ
  | [] => none
  | x :: xs => some (xs.foldl (fun a b => if b < a then b else a) x)

/-- Python `list.index(x)`: position of the first occurrence of `x`
(meaningful only when `x` is a member, as in the modelled call sites). -/
def pyIdxOf (x : ℚ) : List ℚ → Nat
  | [] => 0
  | y :: ys => if y = x then 0 else pyIdxOf x ys + 1

theorem pyMin_step_eq_min (a b : ℚ) : (if b < a then b else a) = min a b := by
  rcases lt_or_le b a with h | h
  · rw [if_pos h, min_eq_right (le_of_lt h)]
  · rw [if_neg (not_lt.mpr h), min_eq_left h]

theorem foldl_min_le_init (xs : List ℚ) : ∀ a : ℚ, xs.foldl min a ≤ a := by
  induction xs with
  | nil => intro a; simp
  | cons x xs ih =>
    intro a
    calc List.foldl min (min a x) xs ≤ min a x := ih (min a x)
    _ ≤ a := min_le_left a x

theorem foldl_min_le_mem (xs : List ℚ) :
    ∀ (a y : ℚ), y ∈ xs → xs.foldl min a ≤ y := by
  induction xs with
  | nil => intro a y hy; cases hy
  | cons x xs ih =>
    intro a y hy
    rcases List.mem_cons.mp hy with h | h
    · subst h
      calc List.foldl min (min a y) xs ≤ min a y := foldl_min_le_init xs (min a y)
      _ ≤ y := min_le_right a y
    · exact ih (min a x) y h

theorem foldl_min_mem (xs : List ℚ) :
    ∀ a : ℚ, xs.foldl min a = a ∨ xs.foldl min a ∈ xs := by
  induction xs with
  | nil => intro a; left; rfl
  | cons x xs ih =>
    intro a
    rcases ih (min a x) with h | h
    · rw [List.foldl_cons, h]
      rcases le_or_lt a x with hax | hax
      · left; exact min_eq_left hax
      · right; rw [min_eq_right (le_of_lt hax)]; exact List.mem_cons_self x xs
    · right
      exact List.mem_cons_of_mem x h

theorem pyMin_eq_foldl_min (x : ℚ) (xs : List ℚ) :
    pyMin (x :: xs) = some (xs.foldl min x) := by
  simp only [pyMin]
  congr 1
  have : (fun (a b : ℚ) => if b < a then b else a) = min := by
    funext a b
    exact pyMin_step_eq_min a b
  rw [this]

/-- The value returned by `pyMin` is a member of the list. -/
theorem pyMin_mem {l : List ℚ} {m : ℚ} (h : pyMin l = some m) : m ∈ l := by
  cases l with
  | nil => cases h
  | cons x xs =>
    rw [pyMin_eq_foldl_min] at h
    have hm : xs.foldl min x = m := Option.some.inj h
    rcases foldl_min_mem xs x with h2 | h2
    · have hxm : m = x := by rw [← hm]; exact h2
      rw [hxm]; exact List.mem_cons_self x xs
    · rw [hm] at h2; exact List.mem_cons_of_mem x h2

/-- The value returned by `pyMin` is a lower bound of the list. -/
theorem pyMin_le {l : List ℚ} {m : ℚ} (h : pyMin l = some m) :
    ∀ y ∈ l, m ≤ y := by
  cases l with
  | nil => cases h
  | cons x xs =>
    rw [pyMin_eq_foldl_min] at h
    have hm : xs.foldl min x = m := Option.some.inj h
    intro y hy
    rcases List.mem_cons.mp hy with h2 | h2
    · rw [← hm, h2]; exact foldl_min_le_init xs x
    · rw [← hm]; exact foldl_min_le_mem xs x y h2

theorem pyMin_isSome {l : List ℚ} (h : l ≠ []) : ∃ m, pyMin l = some m := by
  cases l with
  | nil => exact absurd rfl h
  | cons x xs => exact ⟨_, pyMin_eq_foldl_min x xs⟩

theorem pyIdxOf_lt {x : ℚ} {l : List ℚ} (h : x ∈ l) : pyIdxOf x l < l.length := by
  induction l with
  | nil => cases h
  | cons y ys ih =>
    by_cases hxy : y = x
    · simp [pyIdxOf, hxy]
    · rcases List.mem_cons.mp h with h2 | h2
      · exact absurd h2.symm hxy
      · simp only [pyIdxOf, hxy, if_false, List.length_cons]
        exact Nat.succ_lt_succ (ih h2)

theorem get_pyIdxOf {x : ℚ} {l : List ℚ} (h : x ∈ l) :
    l.get ⟨pyIdxOf x l, pyIdxOf_lt h⟩ = x := by
  induction l with
  | nil => cases h
  | cons y ys ih =>
    by_cases hxy : y = x
    · simp [pyIdxOf, hxy]
    · rcases List.mem_cons.mp h with h2 | h2
      · exact absurd h2.symm hxy
      · simp only [pyIdxOf, hxy, if_false]
        exact ih h2

theorem get_ne_of_lt_pyIdxOf {x : ℚ} {l : List ℚ} {j : Nat} (hj : j < l.length)
    (hlt : j < pyIdxOf x l) : l.get ⟨j, hj⟩ ≠ x := by
  induction l generalizing j with
  | nil => cases hj
  | cons y ys ih =>
    by_cases hxy : y = x
    · simp [pyIdxOf, hxy] at hlt
    · cases j with
      | zero => simpa using hxy
      | succ j =>
        simp only [pyIdxOf, hxy, if_false] at hlt
        simp only [List.get_cons_succ]
        exact ih (Nat.lt_of_succ_lt_succ hj) (Nat.lt_of_succ_lt_succ hlt)

/-! ## `get_nearest_gridpoint` (utils.py lines 517-532) -/

/-- Python/numpy `abs` on a rational. -/
def pyAbs (q : ℚ) : ℚ := if q < 0 then -q else q

theorem pyAbs_eq_abs (q : ℚ) : pyAbs q = |q| := by
  rcases lt_or_le q 0 with h | h
  · rw [pyAbs, if_pos h, abs_of_neg h]
  · rw [pyAbs, if_neg (not_lt.mpr h), abs_of_nonneg h]

/-- Absolute distances of each grid coordinate to the query point
(`abs(grid - point)` in the source). -/
def absDiffs (grid : List ℚ) (p : ℚ) : List ℚ := grid.map (fun g => pyAbs (g - p))

/-- Index of the nearest grid coordinate on one axis:
`list(abs(grid - point)).index(min(abs(grid - point)))`. -/
def nearestIdx (grid : List ℚ) (p : ℚ) : Option Nat :=
  (pyMin (absDiffs grid p)).map (fun d => pyIdxOf d (absDiffs grid p))

/-- `get_nearest_gridpoint`: nearest index on each axis, computed
independently (source lines 526-532); `none` models the `ValueError`
Python's `min` raises on an empty coordinate array. -/
def get_nearest_gridpoint (grid_longitudes grid_latitudes : List ℚ)
    (point_longitude point_latitude : ℚ) : Option (Nat × Nat) :=
  match nearestIdx grid_latitudes point_latitude,
        nearestIdx grid_longitudes point_longitude with
  | some ilat, some ilon => some (ilat, ilon)
  | _, _ => none

theorem absDiffs_length (grid : List ℚ) (p : ℚ) :
    (absDiffs grid p).length = grid.length := List.length_map grid _

theorem absDiffs_get (grid : List ℚ) (p : ℚ) (j : Nat) (hj : j < grid.length) :
    (absDiffs grid p).get ⟨j, by rw [absDiffs_length]; exact hj⟩ =
      |grid.get ⟨j, hj⟩ - p| := by
  simp [absDiffs, pyAbs_eq_abs]

/-- Per-axis correctness of the nearest-index computation: on a nonempty
coordinate list it returns an in-range index whose distance to the query is
minimal, and it is the least index achieving that minimum. -/
theorem nearestIdx_spec (l : List ℚ) (p : ℚ) (h : l ≠ []) :
    ∃ i, nearestIdx l p = some i ∧ ∃ hi : i < l.length,
      (∀ j (hj : j < l.length),
        |l.get ⟨i, hi⟩ - p| ≤ |l.get ⟨j, hj⟩ - p|) ∧
      (∀ j (hj : j < l.length),
        |l.get ⟨j, hj⟩ - p| = |l.get ⟨i, hi⟩ - p| → i ≤ j) := by
  have hne : absDiffs l p ≠ [] := by
    intro hc
    apply h
    have := congrArg List.length hc
    rw [absDiffs_length] at this
    exact List.length_eq_zero.mp this
  obtain ⟨m, hm⟩ := pyMin_isSome hne
  have hmem : m ∈ absDiffs l p := pyMin_mem hm
  set i := pyIdxOf m (absDiffs l p) with hi_def
  have hilt : i < l.length := by
    have := pyIdxOf_lt hmem
    rwa [absDiffs_length] at this
  have hgeti : |l.get ⟨i, hilt⟩ - p| = m := by
    have := get_pyIdxOf hmem
    rwa [absDiffs_get l p i hilt] at this
  refine ⟨i, ?_, hilt, ?_, ?_⟩
  · simp [nearestIdx, hm, hi_def]
  · intro j hj
    rw [hgeti]
    have : (absDiffs l p).get ⟨j, by rw [absDiffs_length]; exact hj⟩ ∈ absDiffs l p :=
      List.get_mem _ _ _
    have hle := pyMin_le hm _ this
    rwa [absDiffs_get l p j hj] at hle
  · intro j hj heq
    by_contra hlt
    push_neg at hlt
    have hne2 : (absDiffs l p).get ⟨j, by rw [absDiffs_length]; exact hj⟩ ≠ m :=
      get_ne_of_lt_pyIdxOf _ hlt
    apply hne2
    rw [absDiffs_get l p j hj, heq, hgeti]

/-- If the query value occurs in a duplicate-free coordinate list at index `k`,
the nearest index is exactly `k`. -/
theorem nearestIdx_of_mem_nodup {l : List ℚ} {p : ℚ} (hd : l.Nodup)
    {k : Nat} (hk : k < l.length) (hp : l.get ⟨k, hk⟩ = p) :
    nearestIdx l p = some k := by
  have hne : l ≠ [] := by
    intro hc; subst hc; cases hk
  obtain ⟨i, hi, hilt, hmin, _⟩ := nearestIdx_spec l p hne
  have h0 : |l.get ⟨i, hilt⟩ - p| = 0 := by
    have h1 := hmin k hk
    rw [hp] at h1
    simp only [sub_self, abs_zero] at h1
    exact le_antisymm h1 (abs_nonneg _)
  have hvi : l.get ⟨i, hilt⟩ = p := by
    rw [abs_eq_zero, sub_eq_zero] at h0
    exact h0
  have : l.get ⟨i, hilt⟩ = l.get ⟨k, hk⟩ := by rw [hvi, hp]
  have hik : (⟨i, hilt⟩ : Fin l.length) = ⟨k, hk⟩ :=
    (List.Nodup.get_inj_iff hd).mp this
  rw [hi]
  exact congrArg some (congrArg Fin.val hik)

/-- C1: for nonempty coordinate arrays, `get_nearest_gridpoint` returns the
pair `(ilat, ilon)` of in-range indices minimising the absolute distance to
the query point independently per axis, with the lowest index winning ties;
and if the query exactly equals a grid coordinate on an axis, the coordinate
at the returned index on that axis equals the query (distance 0). -/
theorem C1_get_nearest_gridpoint_correct (grid_longitudes grid_latitudes : List ℚ)
    (point_longitude point_latitude : ℚ)
    (hlat : grid_latitudes ≠ []) (hlon : grid_longitudes ≠ []) :
    ∃ ilat ilon,
      get_nearest_gridpoint grid_longitudes grid_latitudes
          point_longitude point_latitude = some (ilat, ilon) ∧
      ∃ (h1 : ilat < grid_latitudes.length) (h2 : ilon < grid_longitudes.length),
        (∀ j (hj : j < grid_latitudes.length),
          |grid_latitudes.get ⟨ilat, h1⟩ - point_latitude| ≤
            |grid_latitudes.get ⟨j, hj⟩ - point_latitude|) ∧
        (∀ j (hj : j < grid_latitudes.length),
          |grid_latitudes.get ⟨j, hj⟩ - point_latitude| =
            |grid_latitudes.get ⟨ilat, h1⟩ - point_latitude| → ilat ≤ j) ∧
        (∀ j (hj : j < grid_longitudes.length),
          |grid_longitudes.get ⟨ilon, h2⟩ - point_longitude| ≤
            |grid_longitudes.get ⟨j, hj⟩ - point_longitude|) ∧
        (∀ j (hj : j < grid_longitudes.length),
          |grid_longitudes.get ⟨j, hj⟩ - point_longitude| =
            |grid_longitudes.get ⟨ilon, h2⟩ - point_longitude| → ilon ≤ j) ∧
        (∀ k (hk : k < grid_latitudes.length),
          grid_latitudes.get ⟨k, hk⟩ = point_latitude →
            grid_latitudes.get ⟨ilat, h1⟩ = point_latitude) ∧
        (∀ k (hk : k < grid_longitudes.length),
          grid_longitudes.get ⟨k, hk⟩ = point_longitude →
            grid_longitudes.get ⟨ilon, h2⟩ = point_longitude) := by
  obtain ⟨ilat, hilat, h1, hminlat, htielat⟩ :=
    nearestIdx_spec grid_latitudes point_latitude hlat
  obtain ⟨ilon, hilon, h2, hminlon, htielon⟩ :=
    nearestIdx_spec grid_longitudes point_longitude hlon
  refine ⟨ilat, ilon, ?_, h1, h2, hminlat, htielat, hminlon, htielon, ?_, ?_⟩
  · simp [get_nearest_gridpoint, hilat, hilon]
  · intro k hk hkp
    have hle := hminlat k hk
    rw [hkp] at hle
    simp only [sub_self, abs_zero] at hle
    have h0 : |grid_latitudes.get ⟨ilat, h1⟩ - point_latitude| = 0 :=
      le_antisymm hle (abs_nonneg _)
    rw [abs_eq_zero, sub_eq_zero] at h0
    exact h0
  · intro k hk hkp
    have hle := hminlon k hk
    rw [hkp] at hle
    simp only [sub_self, abs_zero] at hle
    have h0 : |grid_longitudes.get ⟨ilon, h2⟩ - point_longitude| = 0 :=
      le_antisymm hle (abs_nonneg _)
    rw [abs_eq_zero, sub_eq_zero] at h0
    exact h0

/-- Witness for C1 at the concrete grid `lats = [50, 40, 40]`,
`lons = [0, 10]`, query `(40, 7)` (note the latitude tie at indices 1, 2). -/
theorem C1_get_nearest_gridpoint_correct_witness :
    get_nearest_gridpoint [(0 : ℚ), 10] [(50 : ℚ), 40, 40] 7 40 = some (1, 1) ∧
    ∃ ilat ilon,
      get_nearest_gridpoint [(0 : ℚ), 10] [(50 : ℚ), 40, 40] 7 40 = some (ilat, ilon) ∧
      ∃ (h1 : ilat < ([(50 : ℚ), 40, 40] : List ℚ).length)
        (h2 : ilon < ([(0 : ℚ), 10] : List ℚ).length),
        (∀ j (hj : j < ([(50 : ℚ), 40, 40] : List ℚ).length),
          |([(50 : ℚ), 40, 40] : List ℚ).get ⟨ilat, h1⟩ - 40| ≤
            |([(50 : ℚ), 40, 40] : List ℚ).get ⟨j, hj⟩ - 40|) ∧
        (∀ j (hj : j < ([(50 : ℚ), 40, 40] : List ℚ).length),
          |([(50 : ℚ), 40, 40] : List ℚ).get ⟨j, hj⟩ - 40| =
            |([(50 : ℚ), 40, 40] : List ℚ).get ⟨ilat, h1⟩ - 40| → ilat ≤ j) ∧
        (∀ j (hj : j < ([(0 : ℚ), 10] : List ℚ).length),
          |([(0 : ℚ), 10] : List ℚ).get ⟨ilon, h2⟩ - 7| ≤
            |([(0 : ℚ), 10] : List ℚ).get ⟨j, hj⟩ - 7|) ∧
        (∀ j (hj : j < ([(0 : ℚ), 10] : List ℚ).length),
          |([(0 : ℚ), 10] : List ℚ).get ⟨j, hj⟩ - 7| =
            |([(0 : ℚ), 10] : List ℚ).get ⟨ilon, h2⟩ - 7| → ilon ≤ j) ∧
        (∀ k (hk : k < ([(50 : ℚ), 40, 40] : List ℚ).length),
          ([(50 : ℚ), 40, 40] : List ℚ).get ⟨k, hk⟩ = 40 →
            ([(50 : ℚ), 40, 40] : List ℚ).get ⟨ilat, h1⟩ = 40) ∧
        (∀ k (hk : k < ([(0 : ℚ), 10] : List ℚ).length),
          ([(0 : ℚ), 10] : List ℚ).get ⟨k, hk⟩ = 7 →
            ([(0 : ℚ), 10] : List ℚ).get ⟨ilon, h2⟩ = 7) :=
  ⟨by norm_num [get_nearest_gridpoint, nearestIdx, absDiffs, pyMin, pyIdxOf, pyAbs],
   C1_get_nearest_gridpoint_correct [(0 : ℚ), 10] [(50 : ℚ), 40, 40] 7 40
     (by simp) (by simp)⟩

/-! ## `crop_domain` (utils.py lines 535-589)

The dataset is modelled by its 1-D coordinate arrays; the claims about
`crop_domain` concern only the shape of the selected coordinates.  `xarray`'s
positional `isel` follows Python sequence semantics: slices have an exclusive
upper bound and negative values count from the end, integer selection keeps a
size-1 scalar coordinate (modelled as a singleton list) and raises on
out-of-range indices. -/

structure GriddedDataset where
  latitude : List ℚ
  longitude : List ℚ
  deriving DecidableEq, Repr

/-- Python `l[a:b]` for integer bounds (as used by `slice(a, b)` in `isel`). -/
def pySlice {α : Type} (l : List α) (a b : Int) : List α :=
  let n : Int := l.length
  let a2 : Int := if a < 0 then max (n + a) 0 else min a n
  let b2 : Int := if b < 0 then max (n + b) 0 else min b n
  (l.take b2.toNat).drop a2.toNat

/-- Python `l[i]` for an integer index: negative indices count from the end,
out-of-range indices raise (`none`). -/
def pyIndex {α : Type} (l : List α) (i : Int) : Option α :=
  let i2 : Int := if i < 0 then i + l.length else i
  if i2 < 0 then none else l.get? i2.toNat

/-- The buffer-application step of `crop_domain` (source lines 568-577),
verbatim: each guard compares an index with `0` or with the *length* of its
coordinate array. -/
def buffer_indices (nlat nlon : Nat) (buffer_lon buffer_lat : Int)
    (i_min_lat i_max_lat i_min_lon i_max_lon : Int) : Int × Int × Int × Int :=
  let i_min_lat2 := if i_min_lat ≠ (nlat : Int) then i_min_lat + buffer_lat else i_min_lat
  let i_max_lat2 := if i_max_lat ≠ 0 then i_max_lat - buffer_lat else i_max_lat
  let i_min_lon2 := if i_min_lon ≠ 0 then i_min_lon - buffer_lon else i_min_lon
  let i_max_lon2 := if i_max_lon ≠ (nlon : Int) then i_max_lon + buffer_lon else i_max_lon
  (i_min_lat2, i_max_lat2, i_min_lon2, i_max_lon2)

/-- `crop_domain`: nearest indices of the two box corners, buffer adjustment,
then the four-way degenerate/slice selection (source lines 579-589). -/
def crop_domain (data : GriddedDataset) (lat_min lat_max lon_min lon_max : ℚ)
    (grid_buffer : Option (Int × Int)) : Option GriddedDataset :=
  let gb := grid_buffer.getD (0, 0)
  let glats := data.latitude
  let glons := data.longitude
  match get_nearest_gridpoint glons glats lon_min lat_min,
        get_nearest_gridpoint glons glats lon_max lat_max with
  | some (iMinLat0, iMinLon0), some (iMaxLat0, iMaxLon0) =>
    match buffer_indices glats.length glons.length gb.1 gb.2
        (iMinLat0 : Int) (iMaxLat0 : Int) (iMinLon0 : Int) (iMaxLon0 : Int) with
    | (iMinLat, iMaxLat, iMinLon, iMaxLon) =>
      if iMaxLat = iMinLat ∧ iMaxLon ≠ iMinLon then
        match pyIndex glats iMaxLat with
        | some lat => some ⟨[lat], pySlice glons iMinLon iMaxLon⟩
        | none => none
      else if iMaxLat ≠ iMinLat ∧ iMaxLon = iMinLon then
        match pyIndex glons iMaxLon with
        | some lon => some ⟨pySlice glats iMaxLat iMinLat, [lon]⟩
        | none => none
      else if iMaxLat = iMinLat ∧ iMaxLon = iMinLon then
        match pyIndex glats iMaxLat, pyIndex glons iMaxLon with
        | some lat, some lon => some ⟨[lat], [lon]⟩
        | _, _ => none
      else
        some ⟨pySlice glats iMaxLat iMinLat, pySlice glons iMinLon iMaxLon⟩
  | _, _ => none

theorem buffer_indices_zero (nlat nlon : Nat) (a b c d : Int) :
    buffer_indices nlat nlon 0 0 a b c d = (a, b, c, d) := by
  simp only [buffer_indices]
  split <;> split <;> split <;> split <;> simp

theorem pySlice_zero_length {α : Type} (l : List α) (b : Int)
    (hb : 0 ≤ b) (hbl : b ≤ l.length) :
    (pySlice l 0 b).length = b.toNat := by
  simp only [pySlice]
  rw [if_neg (by omega), if_neg (by omega)]
  have h1 : min b (l.length : Int) = b := min_eq_left hbl
  rw [h1]
  rw [List.length_drop, List.length_take]
  omega

/-- C2 counterexample: on the grid `lats = [50, 40]` (descending, as the spec
assumes), `lons = [0, 10]`, with the box `(40, 50, 0, 10)` spanning the whole
grid and zero buffer, `crop_domain` returns the 1×1 dataset `([50], [0])`,
not a dataset of the input shape 2×2: the slice upper bounds are exclusive. -/
theorem C2_crop_full_box_counterexample :
    crop_domain ⟨[(50 : ℚ), 40], [(0 : ℚ), 10]⟩ 40 50 0 10 none =
      some ⟨[(50 : ℚ)], [(0 : ℚ)]⟩ ∧
    ¬ ∃ out, crop_domain ⟨[(50 : ℚ), 40], [(0 : ℚ), 10]⟩ 40 50 0 10 none = some out ∧
        out.latitude.length = 2 ∧ out.longitude.length = 2 := by
  have h : crop_domain ⟨[(50 : ℚ), 40], [(0 : ℚ), 10]⟩ 40 50 0 10 none =
      some ⟨[(50 : ℚ)], [(0 : ℚ)]⟩ := by
    norm_num [crop_domain, get_nearest_gridpoint, nearestIdx, absDiffs, pyMin,
      pyIdxOf, pyAbs, buffer_indices, pySlice, pyIndex]
  refine ⟨h, ?_⟩
  rintro ⟨out, hout, hlat, _⟩
  rw [h] at hout
  cases Option.some.inj hout
  simp at hlat

/-- C2 (amended): for a duplicate-free descending latitude array (maximum at
index 0, minimum at the last index) and a duplicate-free ascending longitude
array (minimum at index 0, maximum at the last index), each of length ≥ 2,
cropping with the box whose corners exactly match the extreme grid
coordinates and zero (default) buffer succeeds but returns a dataset with
`nlat - 1` latitudes and `nlon - 1` longitudes — one less than the input on
each axis, because the Python slice upper bound is exclusive. -/
theorem C2_crop_full_box_amended (data : GriddedDataset)
    (lat_min lat_max lon_min lon_max : ℚ)
    (hn : 2 ≤ data.latitude.length) (hm : 2 ≤ data.longitude.length)
    (hndlat : data.latitude.Nodup) (hndlon : data.longitude.Nodup)
    (hmax : data.latitude.get ⟨0, by omega⟩ = lat_max)
    (hmin : data.latitude.get ⟨data.latitude.length - 1, by omega⟩ = lat_min)
    (hlmin : data.longitude.get ⟨0, by omega⟩ = lon_min)
    (hlmax : data.longitude.get ⟨data.longitude.length - 1, by omega⟩ = lon_max) :
    ∃ out, crop_domain data lat_min lat_max lon_min lon_max none = some out ∧
      out.latitude.length = data.latitude.length - 1 ∧
      out.longitude.length = data.longitude.length - 1 := by
  set n := data.latitude.length with hn_def
  set m := data.longitude.length with hm_def
  have ha : nearestIdx data.latitude lat_min = some (n - 1) :=
    nearestIdx_of_mem_nodup hndlat (by omega) hmin
  have hb : nearestIdx data.latitude lat_max = some 0 :=
    nearestIdx_of_mem_nodup hndlat (by omega) hmax
  have hc : nearestIdx data.longitude lon_min = some 0 :=
    nearestIdx_of_mem_nodup hndlon (by omega) hlmin
  have hd : nearestIdx data.longitude lon_max = some (m - 1) :=
    nearestIdx_of_mem_nodup hndlon (by omega) hlmax
  have hgnp1 : get_nearest_gridpoint data.longitude data.latitude lon_min lat_min =
      some (n - 1, 0) := by
    simp [get_nearest_gridpoint, ha, hc]
  have hgnp2 : get_nearest_gridpoint data.longitude data.latitude lon_max lat_max =
      some (0, m - 1) := by
    simp [get_nearest_gridpoint, hb, hd]
  refine ⟨⟨pySlice data.latitude 0 ((n : Int) - 1),
           pySlice data.longitude 0 ((m : Int) - 1)⟩, ?_, ?_, ?_⟩
  · simp only [crop_domain, hgnp1, hgnp2, Option.getD, buffer_indices_zero]
    rw [if_neg (by push_neg; intro hcontra; omega),
        if_neg (by push_neg; intro hcontra; omega),
        if_neg (by push_neg; intro hcontra; omega)]
    have e1 : ((n - 1 : Nat) : Int) = (n : Int) - 1 := by omega
    have e2 : ((m - 1 : Nat) : Int) = (m : Int) - 1 := by omega
    rw [e1, e2]
    norm_num
  · rw [pySlice_zero_length _ _ (by omega) (by rw [← hn_def]; omega)]
    omega
  · rw [pySlice_zero_length _ _ (by omega) (by rw [← hm_def]; omega)]
    omega

/-- Witness for C2's amended theorem on the concrete grid
`lats = [50, 40, 30]`, `lons = [0, 10]`: the crop keeps 2 of 3 latitudes and
1 of 2 longitudes. -/
theorem C2_crop_full_box_amended_witness :
    ∃ out, crop_domain ⟨[(50 : ℚ), 40, 30], [(0 : ℚ), 10]⟩ 30 50 0 10 none = some out ∧
      out.latitude.length = ([(50 : ℚ), 40, 30] : List ℚ).length - 1 ∧
      out.longitude.length = ([(0 : ℚ), 10] : List ℚ).length - 1 :=
  C2_crop_full_box_amended ⟨[(50 : ℚ), 40, 30], [(0 : ℚ), 10]⟩ 30 50 0 10
    (by simp) (by simp) (by norm_num) (by norm_num)
    (by norm_num) (by norm_num) (by norm_num) (by norm_num)

/-- Buffer-application step as the claim words it (for refinement comparison
with `buffer_indices`): each side is adjusted by its per-axis buffer,
except that a side whose index is already at an extreme position — index `0`
or index `length - 1` of its coordinate array — is left unbuffered. -/
def buffer_indices_claimed (nlat nlon : Nat) (buffer_lon buffer_lat : Int)
    (i_min_lat i_max_lat i_min_lon i_max_lon : Int) : Int × Int × Int × Int :=
  (if i_min_lat = 0 ∨ i_min_lat = (nlat : Int) - 1 then i_min_lat
     else i_min_lat + buffer_lat,
   if i_max_lat = 0 ∨ i_max_lat = (nlat : Int) - 1 then i_max_lat
     else i_max_lat - buffer_lat,
   if i_min_lon = 0 ∨ i_min_lon = (nlon : Int) - 1 then i_min_lon
     else i_min_lon - buffer_lon,
   if i_max_lon = 0 ∨ i_max_lon = (nlon : Int) - 1 then i_max_lon
     else i_max_lon + buffer_lon)

/-- C3 counterexample: on 2-point axes with both-side buffer 1 and corner
indices `(i_min_lat, i_max_lat, i_min_lon, i_max_lon) = (1, 0, 0, 1)`, the
code buffers the sides sitting at the extreme index `length - 1 = 1`
(producing the out-of-range indices 2), while the claim says they are left
unbuffered: the code's guards compare with `length`, which an index never
equals, not with `length - 1`. -/
theorem C3_buffer_extremes_counterexample :
    buffer_indices 2 2 1 1 1 0 0 1 = (2, 0, 0, 2) ∧
    buffer_indices_claimed 2 2 1 1 1 0 0 1 = (1, 0, 0, 1) ∧
    buffer_indices 2 2 1 1 1 0 0 1 ≠ buffer_indices_claimed 2 2 1 1 1 0 0 1 := by
  refine ⟨by decide, by decide, by decide⟩

/-- C3 (amended): for corner indices that are in range for their coordinate
arrays, the `≠ length` guards of the buffer step are vacuous, so the
latitude-min and longitude-max sides are always buffered; only the
latitude-max and longitude-min sides are exempted, and only when they sit at
index 0 (not at index `length - 1`). -/
theorem C3_buffer_extremes_amended (nlat nlon : Nat) (buffer_lon buffer_lat : Int)
    (i_min_lat i_max_lat i_min_lon i_max_lon : Int)
    (h1 : i_min_lat < (nlat : Int)) (h2 : i_max_lon < (nlon : Int)) :
    buffer_indices nlat nlon buffer_lon buffer_lat
        i_min_lat i_max_lat i_min_lon i_max_lon =
      (i_min_lat + buffer_lat,
       if i_max_lat = 0 then i_max_lat else i_max_lat - buffer_lat,
       if i_min_lon = 0 then i_min_lon else i_min_lon - buffer_lon,
       i_max_lon + buffer_lon) := by
  simp only [buffer_indices]
  split_ifs <;> simp_all [Prod.mk.injEq]

/-- Witness for C3's amended theorem at
`nlat = nlon = 3`, buffers `(1, 1)`, indices `(2, 0, 1, 2)`. -/
theorem C3_buffer_extremes_amended_witness :
    buffer_indices 3 3 1 1 2 0 1 2 =
      (2 + 1,
       if (0 : Int) = 0 then (0 : Int) else 0 - 1,
       if (1 : Int) = 0 then (1 : Int) else 1 - 1,
       2 + 1) :=
  C3_buffer_extremes_amended 3 3 1 1 2 0 1 2 (by decide) (by decide)

/-- C4: whenever the two (buffer-adjusted) latitude indices coincide and the
two longitude indices coincide and are valid positions, `crop_domain` takes
the point-selection branch and returns a dataset whose latitude and longitude
coordinate arrays each have length 1 (the size-1 scalar coordinate kept by an
integer `isel`). -/
theorem C4_crop_point_query (data : GriddedDataset)
    (lat_min lat_max lon_min lon_max : ℚ) (grid_buffer : Option (Int × Int))
    (a c b d : Nat) (i1 i2 i3 i4 : Int) (x y : ℚ)
    (hgnp1 : get_nearest_gridpoint data.longitude data.latitude lon_min lat_min =
      some (a, c))
    (hgnp2 : get_nearest_gridpoint data.longitude data.latitude lon_max lat_max =
      some (b, d))
    (hbuf : buffer_indices data.latitude.length data.longitude.length
        (grid_buffer.getD (0, 0)).1 (grid_buffer.getD (0, 0)).2
        (a : Int) (b : Int) (c : Int) (d : Int) = (i1, i2, i3, i4))
    (hlat_eq : i2 = i1) (hlon_eq : i4 = i3)
    (hx : pyIndex data.latitude i2 = some x)
    (hy : pyIndex data.longitude i4 = some y) :
    ∃ out, crop_domain data lat_min lat_max lon_min lon_max grid_buffer = some out ∧
      out.latitude.length = 1 ∧ out.longitude.length = 1 := by
  refine ⟨⟨[x], [y]⟩, ?_, rfl, rfl⟩
  simp only [crop_domain, hgnp1, hgnp2, hbuf]
  rw [if_neg (by simp [hlat_eq, hlon_eq]),
      if_neg (by simp [hlat_eq, hlon_eq]),
      if_pos ⟨hlat_eq, hlon_eq⟩]
  simp [hx, hy]

/-- Witness for C4 on the grid `lats = [50, 40]`, `lons = [0, 10]` with the
degenerate box `(50, 50, 0, 0)` and default buffer. -/
theorem C4_crop_point_query_witness :
    ∃ out, crop_domain ⟨[(50 : ℚ), 40], [(0 : ℚ), 10]⟩ 50 50 0 0 none = some out ∧
      out.latitude.length = 1 ∧ out.longitude.length = 1 :=
  C4_crop_point_query ⟨[(50 : ℚ), 40], [(0 : ℚ), 10]⟩ 50 50 0 0 none
    0 0 0 0 0 0 0 0 50 0
    (by norm_num [get_nearest_gridpoint, nearestIdx, absDiffs, pyMin, pyIdxOf, pyAbs])
    (by norm_num [get_nearest_gridpoint, nearestIdx, absDiffs, pyMin, pyIdxOf, pyAbs])
    (by decide) rfl rfl
    (by norm_num [pyIndex]) (by norm_num [pyIndex])

/-! ## `Preprocess` (utils.py lines 70-119)

A pandas DataFrame is modelled as an ordered association list of named
columns.  Column access (`df['X']`) raises `KeyError` on a missing column;
assignment replaces an existing column or appends a new one.  The
transcendental functions (`cos`, `sin`, `deg2rad`, `exp`) are parameters of
the generic model, instantiated with the real ones in the claims about real
arithmetic and with computable dummies in concrete witnesses. -/

abbrev Table (α : Type) := List (String × List α)

def Table.columns {α : Type} (t : Table α) : List String := t.map Prod.fst

/-- `df[c]`: the column named `c`, or a `KeyError`. -/
def Table.getCol {α : Type} (t : Table α) (c : String) : Except PyError (List α) :=
  match t.find? (fun p => p.1 == c) with
  | some p => .ok p.2
  | none => .error (.keyError c)

/-- `df[c] = v`: replace the column in place (column names are unique in the
DataFrames this code builds), or append it at the end. -/
def Table.setCol {α : Type} : Table α → String → List α → Table α
  | [], c, v => [(c, v)]
  | q :: qs, c, v => if q.1 == c then (c, v) :: qs else q :: Table.setCol qs c v

/-- `del df[c]` (called only on present columns in the modelled code). -/
def Table.delCol {α : Type} (t : Table α) (c : String) : Table α :=
  t.filter (fun p => ¬ p.1 == c)

/-- `Preprocess._check_variable_in_obj` (lines 74-78): raises
`AttributeError` when the *intersection* of the table's columns with the
requested variables is empty. -/
def check_variable_in_obj {α : Type} (t : Table α) (variables_to_check : List String) :
    Except PyError Unit :=
  if (t.columns.filter (fun c => variables_to_check.contains c)).isEmpty then
    .error (.attributeError ("Must have " ++ String.intercalate ", " variables_to_check))
  else .ok ()

/-- Entrywise kernel of the `U` column: `speed * cos(deg2rad(270 - dir))`. -/
def windUgen {α : Type} [Field α] (cosf deg2radf : α → α) (s d : α) : α :=
  s * cosf (deg2radf (270 - d))

/-- Entrywise kernel of the `V` column: `speed * sin(deg2rad(270 - dir))`. -/
def windVgen {α : Type} [Field α] (sinf deg2radf : α → α) (s d : α) : α :=
  s * sinf (deg2radf (270 - d))

/-- `Preprocess.wind_components` (lines 80-91).  Errors carry the table as it
stands when the exception is raised (the caller's mutated object). -/
def wind_components {α : Type} [Field α] (cosf sinf deg2radf : α → α)
    (t : Table α) (substitute : Bool) : Except (PyError × Table α) (Table α) :=
  match check_variable_in_obj t ["WSPD", "WDIR"] with
  | .error e => .error (e, t)
  | .ok _ =>
    match t.getCol "WSPD" with
    | .error e => .error (e, t)
    | .ok wspd =>
      match t.getCol "WDIR" with
      | .error e => .error (e, t)
      | .ok wdir =>
        let t1 := t.setCol "U" (List.zipWith (windUgen cosf deg2radf) wspd wdir)
        match t1.getCol "WSPD" with
        | .error e => .error (e, t1)
        | .ok wspd2 =>
          match t1.getCol "WDIR" with
          | .error e => .error (e, t1)
          | .ok wdir2 =>
            let t2 := t1.setCol "V" (List.zipWith (windVgen sinf deg2radf) wspd2 wdir2)
            if substitute then .ok ((t2.delCol "WSPD").delCol "WDIR")
            else .ok t2

/-- The Clausius-Clapeyron vapor-pressure expression applied to `TDEW` and
`TMPA` alike: `e0 * exp(l_rv * (1/t0 - 1/x))` with `e0 = 0.611` kPa,
`l_rv = 5423` K, `t0 = 273` K (lines 106-114). -/
def vaporPressureTerm {α : Type} [Field α] (expf : α → α) (x : α) : α :=
  (611 / 1000 : α) * expf ((5423 : α) * (1 / (273 : α) - 1 / x))

/-- `Preprocess.calculate_relative_humidity` (lines 101-119).  Note there is
no `_check_variable_in_obj` call: a missing column raises `KeyError` at
first access, after any columns assigned so far have been added. -/
def calculate_relative_humidity {α : Type} [Field α] (expf : α → α)
    (t : Table α) : Except (PyError × Table α) (Table α) :=
  match t.getCol "TDEW" with
  | .error e => .error (e, t)
  | .ok tdew =>
    let t1 := t.setCol "E" (tdew.map (vaporPressureTerm expf))
    match t1.getCol "TMPA" with
    | .error e => .error (e, t1)
    | .ok tmpa =>
      let t2 := t1.setCol "ES" (tmpa.map (vaporPressureTerm expf))
      match t2.getCol "E", t2.getCol "ES" with
      | .ok ecol, .ok escol =>
        let t3 := t2.setCol "RHMA" (List.zipWith (fun e es => e / es * 100) ecol escol)
        .ok ((t3.delCol "E").delCol "ES")
      | .error e, _ => .error (e, t2)
      | _, .error e => .error (e, t2)

theorem getCol_cons {α : Type} (q : String × List α) (qs : Table α) (c : String) :
    Table.getCol (q :: qs) c =
      if q.1 = c then .ok q.2 else Table.getCol qs c := by
  by_cases h : q.1 = c
  · simp [Table.getCol, List.find?, h]
  · simp only [Table.getCol, List.find?, show (q.1 == c) = false by simp [h], if_neg h]

theorem getCol_eq_error_of_not_mem {α : Type} {t : Table α} {c : String}
    (h : c ∉ t.columns) : t.getCol c = .error (.keyError c) := by
  induction t with
  | nil => rfl
  | cons q qs ih =>
    have h1 : q.1 ≠ c := fun hc =>
      h (hc ▸ List.mem_map_of_mem Prod.fst (List.mem_cons_self q qs))
    have h2 : c ∉ Table.columns qs := fun hc => h (List.mem_cons_of_mem _ hc)
    rw [getCol_cons, if_neg h1]
    exact ih h2

theorem exists_getCol_ok_of_mem {α : Type} {t : Table α} {c : String}
    (h : c ∈ t.columns) : ∃ v, t.getCol c = .ok v := by
  induction t with
  | nil => cases h
  | cons q qs ih =>
    by_cases hq : q.1 = c
    · exact ⟨q.2, by rw [getCol_cons, if_pos hq]⟩
    · have h2 : c ∈ Table.columns qs := by
        rcases List.mem_cons.mp h with h3 | h3
        · exact absurd h3.symm hq
        · exact h3
      obtain ⟨v, hv⟩ := ih h2
      exact ⟨v, by rw [getCol_cons, if_neg hq]; exact hv⟩

theorem getCol_setCol_self {α : Type} (t : Table α) (c : String) (v : List α) :
    (t.setCol c v).getCol c = .ok v := by
  induction t with
  | nil => simp [Table.setCol, getCol_cons]
  | cons q qs ih =>
    by_cases hq : q.1 = c
    · simp [Table.setCol, hq, getCol_cons]
    · rw [Table.setCol, if_neg (by simp [hq]), getCol_cons, if_neg hq]
      exact ih

theorem getCol_setCol_ne {α : Type} (t : Table α) {c c2 : String} {v : List α}
    (h : c2 ≠ c) : (t.setCol c v).getCol c2 = t.getCol c2 := by
  induction t with
  | nil => rw [Table.setCol, getCol_cons, if_neg (fun hc => h hc.symm)]
  | cons q qs ih =>
    by_cases hq : q.1 = c
    · rw [Table.setCol, if_pos (by simp [hq]), getCol_cons,
        if_neg (fun hc => h hc.symm), getCol_cons, if_neg (hq ▸ fun hc => h hc.symm)]
    · rw [Table.setCol, if_neg (by simp [hq]), getCol_cons, getCol_cons]
      by_cases hq2 : q.1 = c2
      · rw [if_pos hq2, if_pos hq2]
      · rw [if_neg hq2, if_neg hq2]
        exact ih

theorem getCol_delCol_ne {α : Type} (t : Table α) {c c2 : String}
    (h : c2 ≠ c) : (t.delCol c).getCol c2 = t.getCol c2 := by
  induction t with
  | nil => rfl
  | cons q qs ih =>
    by_cases hq : q.1 = c
    · rw [Table.delCol, List.filter_cons, if_neg (by simp [hq]), getCol_cons,
        if_neg (hq ▸ fun hc => h hc.symm)]
      exact ih
    · rw [Table.delCol, List.filter_cons, if_pos (by simp [hq]), getCol_cons, getCol_cons]
      by_cases hq2 : q.1 = c2
      · rw [if_pos hq2, if_pos hq2]
      · rw [if_neg hq2, if_neg hq2]
        exact ih

theorem mem_columns_setCol {α : Type} (t : Table α) (c c2 : String) (v : List α) :
    c2 ∈ (t.setCol c v).columns ↔ c2 ∈ t.columns ∨ c2 = c := by
  induction t with
  | nil => simp [Table.setCol, Table.columns, eq_comm]
  | cons q qs ih =>
    by_cases hq : q.1 = c
    · rw [Table.setCol, if_pos (by simp [hq])]
      simp only [Table.columns, List.map_cons, List.mem_cons, hq]
      constructor
      · rintro (h | h)
        · exact Or.inr h
        · exact Or.inl (Or.inr h)
      · rintro ((h | h) | h)
        · exact Or.inl (hq ▸ h)
        · exact Or.inr h
        · exact Or.inl h
    · rw [Table.setCol, if_neg (by simp [hq])]
      simp only [Table.columns, List.map_cons, List.mem_cons] at ih ⊢
      constructor
      · rintro (h | h)
        · exact Or.inl (Or.inl h)
        · rcases ih.mp h with h2 | h2
          · exact Or.inl (Or.inr h2)
          · exact Or.inr h2
      · rintro ((h | h) | h)
        · exact Or.inl h
        · exact Or.inr (ih.mpr (Or.inl h))
        · exact Or.inr (ih.mpr (Or.inr h))

theorem check_error_of_all_not_mem {α : Type} {t : Table α} {l : List String}
    (h : ∀ v ∈ l, v ∉ t.columns) :
    check_variable_in_obj t l =
      .error (.attributeError ("Must have " ++ String.intercalate ", " l)) := by
  rw [check_variable_in_obj, if_pos]
  rw [List.isEmpty_iff, List.filter_eq_nil_iff]
  intro c hc
  simp only [Bool.not_eq_true]
  by_cases hmem : c ∈ l
  · exact absurd hc (h c hmem)
  · rw [← Bool.not_eq_true]
    intro hcontains
    exact hmem (List.mem_of_elem_eq_true hcontains)

theorem check_ok_of_mem {α : Type} {t : Table α} {l : List String} {v : String}
    (hv : v ∈ l) (hc : v ∈ t.columns) :
    check_variable_in_obj t l = .ok () := by
  rw [check_variable_in_obj, if_neg]
  rw [List.isEmpty_iff]
  intro hnil
  have : v ∈ t.columns.filter (fun c => l.contains c) := by
    rw [List.mem_filter]
    exact ⟨hc, List.elem_eq_true_of_mem hv⟩
  rw [hnil] at this
  cases this

/-- C6 counterexample: on a table that has `WSPD` but not `WDIR`, the
pre-check of `wind_components` passes (it only tests that the *intersection*
with the required columns is nonempty), and the failure is a `KeyError` at
the `WDIR` access — not an attribute-style error.  (Computable instance:
`α = ℚ` with identity stand-ins for the transcendental functions, which the
error path never evaluates.) -/
theorem C6_missing_column_counterexample :
    wind_components (α := ℚ) id id id [("WSPD", [5])] false =
      .error (.keyError "WDIR", [("WSPD", [5])]) ∧
    ∀ msg tbl, wind_components (α := ℚ) id id id [("WSPD", [5])] false ≠
      .error (.attributeError msg, tbl) := by
  have h : wind_components (α := ℚ) id id id [("WSPD", [5])] false =
      .error (.keyError "WDIR", [("WSPD", [5])]) := by
    simp [wind_components, check_variable_in_obj, Table.getCol, Table.columns,
      List.find?, List.filter, List.contains]
  refine ⟨h, ?_⟩
  intro msg tbl hcontra
  rw [h] at hcontra
  simp at hcontra

/-- C6 (amended): `wind_components` raises `AttributeError` only when *none*
of `WSPD`, `WDIR` is present; when exactly one of them is present the check
passes and a `KeyError` for the missing column is raised before any column
is added (the error state is the unchanged table).
`calculate_relative_humidity` has no pre-check at all: a missing `TDEW`
raises `KeyError` with the table unchanged, but a missing `TMPA` (with
`TDEW` present) raises only after the intermediate column `E` has already
been added to the caller's table. -/
theorem C6_missing_column_amended {α : Type} [Field α]
    (cosf sinf deg2radf expf : α → α) (substitute : Bool) :
    (∀ t : Table α, "WSPD" ∉ t.columns → "WDIR" ∉ t.columns →
      wind_components cosf sinf deg2radf t substitute =
        .error (.attributeError
          ("Must have " ++ String.intercalate ", " ["WSPD", "WDIR"]), t)) ∧
    (∀ t : Table α, "WSPD" ∈ t.columns → "WDIR" ∉ t.columns →
      wind_components cosf sinf deg2radf t substitute =
        .error (.keyError "WDIR", t)) ∧
    (∀ t : Table α, "WSPD" ∉ t.columns → "WDIR" ∈ t.columns →
      wind_components cosf sinf deg2radf t substitute =
        .error (.keyError "WSPD", t)) ∧
    (∀ t : Table α, "TDEW" ∉ t.columns →
      calculate_relative_humidity expf t = .error (.keyError "TDEW", t)) ∧
    (∀ t : Table α, "TDEW" ∈ t.columns → "TMPA" ∉ t.columns → "E" ≠ "TMPA" →
      ∃ ecol, calculate_relative_humidity expf t =
        .error (.keyError "TMPA", t.setCol "E" ecol) ∧
        "E" ∈ (t.setCol "E" ecol).columns) := by
  refine ⟨?_, ?_, ?_, ?_, ?_⟩
  · intro t h1 h2
    have hcheck := check_error_of_all_not_mem (t := t)
      (l := ["WSPD", "WDIR"]) (by
        intro v hv
        rcases List.mem_cons.mp hv with h | h
        · exact h ▸ h1
        · rcases List.mem_cons.mp h with h3 | h3
          · exact h3 ▸ h2
          · cases h3)
    simp only [wind_components, hcheck]
  · intro t h1 h2
    have hcheck : check_variable_in_obj t ["WSPD", "WDIR"] = .ok () :=
      check_ok_of_mem (List.mem_cons_self _ _) h1
    obtain ⟨w, hw⟩ := exists_getCol_ok_of_mem h1
    have hdir : t.getCol "WDIR" = .error (.keyError "WDIR") :=
      getCol_eq_error_of_not_mem h2
    simp only [wind_components, hcheck, hw, hdir]
  · intro t h1 h2
    have hcheck : check_variable_in_obj t ["WSPD", "WDIR"] = .ok () :=
      check_ok_of_mem (List.mem_cons_of_mem _ (List.mem_cons_self _ _)) h2
    have hspd : t.getCol "WSPD" = .error (.keyError "WSPD") :=
      getCol_eq_error_of_not_mem h1
    simp only [wind_components, hcheck, hspd]
  · intro t h1
    have hdew : t.getCol "TDEW" = .error (.keyError "TDEW") :=
      getCol_eq_error_of_not_mem h1
    simp only [calculate_relative_humidity, hdew]
  · intro t h1 h2 hne
    obtain ⟨dcol, hdew⟩ := exists_getCol_ok_of_mem h1
    refine ⟨dcol.map (vaporPressureTerm expf), ?_, ?_⟩
    · have h3 : "TMPA" ∉ (t.setCol "E" (dcol.map (vaporPressureTerm expf))).columns := by
        rw [mem_columns_setCol]
        rintro (h | h)
        · exact h2 h
        · exact hne h.symm
      have htmpa := getCol_eq_error_of_not_mem h3
      simp only [calculate_relative_humidity, hdew, htmpa]
    · exact (mem_columns_setCol _ _ _ _).mpr (Or.inr rfl)

/-- Witness for C6's amended theorem on concrete one-column tables over `ℚ`
with identity stand-ins for the transcendental functions. -/
theorem C6_missing_column_amended_witness :
    (wind_components (α := ℚ) id id id [("PCNR", [1])] false =
      .error (.attributeError
        ("Must have " ++ String.intercalate ", " ["WSPD", "WDIR"]), [("PCNR", [1])])) ∧
    (wind_components (α := ℚ) id id id [("WSPD", [2])] false =
      .error (.keyError "WDIR", [("WSPD", [2])])) ∧
    (wind_components (α := ℚ) id id id [("WDIR", [3])] false =
      .error (.keyError "WSPD", [("WDIR", [3])])) ∧
    (calculate_relative_humidity (α := ℚ) id [("PCNR", [1])] =
      .error (.keyError "TDEW", [("PCNR", [1])])) ∧
    (∃ ecol, calculate_relative_humidity (α := ℚ) id [("TDEW", [273])] =
      .error (.keyError "TMPA", Table.setCol [("TDEW", [273])] "E" ecol) ∧
      "E" ∈ (Table.setCol [("TDEW", [273])] "E" ecol).columns) :=
  ⟨(C6_missing_column_amended (α := ℚ) id id id id false).1
      [("PCNR", [1])] (by decide) (by decide),
   (C6_missing_column_amended (α := ℚ) id id id id false).2.1
      [("WSPD", [2])] (by decide) (by decide),
   (C6_missing_column_amended (α := ℚ) id id id id false).2.2.1
      [("WDIR", [3])] (by decide) (by decide),
   (C6_missing_column_amended (α := ℚ) id id id id false).2.2.2.1
      [("PCNR", [1])] (by decide),
   (C6_missing_column_amended (α := ℚ) id id id id false).2.2.2.2
      [("TDEW", [273])] (by decide) (by decide) (by decide)⟩

theorem zipWith_div_self_map {f : ℝ → ℝ} (hf : ∀ x, f x ≠ 0) (col : List ℝ) :
    List.zipWith (fun e es => e / es * 100) (col.map f) (col.map f) =
      col.map (fun _ => (100 : ℝ)) := by
  induction col with
  | nil => rfl
  | cons x xs ih =>
    simp only [List.map_cons, List.zipWith_cons_cons, ih]
    rw [div_self (hf x), one_mul]

/-- C7: on any real table whose `TDEW` and `TMPA` columns are the same list
of nonzero temperatures, `calculate_relative_humidity` (with the real `exp`)
succeeds and produces an `RHMA` column identically equal to 100. -/
theorem C7_relative_humidity_saturation (t : Table ℝ) (col : List ℝ)
    (htdew : t.getCol "TDEW" = .ok col) (htmpa : t.getCol "TMPA" = .ok col)
    (_hnz : ∀ x ∈ col, x ≠ 0) :
    ∃ out, calculate_relative_humidity Real.exp t = .ok out ∧
      out.getCol "RHMA" = .ok (col.map (fun _ => (100 : ℝ))) := by
  have hvap : ∀ x : ℝ, vaporPressureTerm Real.exp x ≠ 0 := by
    intro x
    have : (0 : ℝ) < (611 / 1000 : ℝ) * Real.exp ((5423 : ℝ) * (1 / 273 - 1 / x)) :=
      mul_pos (by norm_num) (Real.exp_pos _)
    rw [vaporPressureTerm]
    exact ne_of_gt this
  set ecol := col.map (vaporPressureTerm Real.exp) with hecol
  set t1 := t.setCol "E" ecol with ht1
  have htmpa1 : t1.getCol "TMPA" = .ok col := by
    rw [ht1, getCol_setCol_ne t (by decide)]
    exact htmpa
  set t2 := t1.setCol "ES" ecol with ht2
  have hE2 : t2.getCol "E" = .ok ecol := by
    rw [ht2, getCol_setCol_ne t1 (by decide), ht1, getCol_setCol_self]
  have hES2 : t2.getCol "ES" = .ok ecol := by
    rw [ht2, getCol_setCol_self]
  set rhma := List.zipWith (fun e es => e / es * 100) ecol ecol with hrhma
  refine ⟨((t2.setCol "RHMA" rhma).delCol "E").delCol "ES", ?_, ?_⟩
  · simp only [calculate_relative_humidity, htdew, ← ht1, ← hecol, htmpa1, ← ht2,
      hE2, hES2, ← hrhma]
  · rw [getCol_delCol_ne _ (by decide), getCol_delCol_ne _ (by decide),
      getCol_setCol_self]
    congr 1
    rw [hrhma, hecol]
    exact zipWith_div_self_map hvap col

/-- Witness for C7 on the one-row table `TDEW = TMPA = [280]`. -/
theorem C7_relative_humidity_saturation_witness :
    ∃ out, calculate_relative_humidity Real.exp
        [("TDEW", [(280 : ℝ)]), ("TMPA", [(280 : ℝ)])] = .ok out ∧
      out.getCol "RHMA" = .ok ([(280 : ℝ)].map (fun _ => (100 : ℝ))) :=
  C7_relative_humidity_saturation [("TDEW", [(280 : ℝ)]), ("TMPA", [(280 : ℝ)])]
    [(280 : ℝ)]
    (by simp [Table.getCol, List.find?])
    (by simp [Table.getCol, List.find?])
    (by intro x hx; rw [List.mem_singleton] at hx; rw [hx]; norm_num)

/-- `np.deg2rad`. -/
noncomputable def deg2rad (x : ℝ) : ℝ := x * (Real.pi / 180)

/-- The `U` entry computed by `wind_components` over the reals. -/
noncomputable def windU (s d : ℝ) : ℝ := windUgen Real.cos deg2rad s d

/-- The `V` entry computed by `wind_components` over the reals. -/
noncomputable def windV (s d : ℝ) : ℝ := windVgen Real.sin deg2rad s d

/-- C8: for every speed `s ≥ 0` and direction `d`, the wind components
`U = s*cos(deg2rad(270 - d))`, `V = s*sin(deg2rad(270 - d))` computed by
`wind_components` satisfy `sqrt(U² + V²) = s`, exactly over the reals. -/
theorem C8_wind_components_roundtrip (s d : ℝ) (hs : 0 ≤ s) :
    Real.sqrt (windU s d ^ 2 + windV s d ^ 2) = s := by
  have h : windU s d ^ 2 + windV s d ^ 2 = s ^ 2 := by
    have hid : Real.sin (deg2rad (270 - d)) ^ 2 + Real.cos (deg2rad (270 - d)) ^ 2 = 1 :=
      Real.sin_sq_add_cos_sq _
    simp only [windU, windV, windUgen, windVgen]
    nlinarith [hid]
  rw [h, Real.sqrt_sq hs]

/-- Witness for C8 at `s = 3`, `d = 77`. -/
theorem C8_wind_components_roundtrip_witness :
    Real.sqrt (windU 3 77 ^ 2 + windV 3 77 ^ 2) = 3 :=
  C8_wind_components_roundtrip 3 77 (by norm_num)

/-! ## `group_data` (utils.py lines 419-458)

Timestamps are modelled as `(calendar day, hour of day)` pairs; the dataset
is a time series of rational values.  The Python string surgery on the
grouping directive (`split('_')`, `replace("hour", "")`, `int(...)`) is
modelled by explicit character-list functions.  `resample(time='1D')`
produces one bin per calendar day from the minimum to the maximum day of the
(filtered) series; an empty `mean`/`min`/`max` bin is NaN (`none`), an empty
`sum` bin is 0.  The model covers the `'1D'` frequency the claims exercise;
other pandas frequency strings are outside it. -/

abbrev TimeSeries := List ((Nat × Nat) × ℚ)

/-- Python `s.split("_")`. -/
def pySplitUnder : List Char → List (List Char)
  | [] => [[]]
  | c :: cs =>
    let rest := pySplitUnder cs
    if c = '_' then [] :: rest
    else
      match rest with
      | r :: rs => (c :: r) :: rs
      | [] => [[c]]

/-- Python `s.replace("hour", "")`: delete every (non-overlapping,
left-to-right) occurrence of `"hour"`. -/
def stripHour : List Char → List Char
  | [] => []
  | 'h' :: 'o' :: 'u' :: 'r' :: rest => stripHour rest
  | c :: rest => c :: stripHour rest

/-- Python `int(s)` for the digit strings this code produces
(`ValueError`, i.e. `none`, otherwise). -/
def pyToInt (s : List Char) : Option Nat :=
  if s = [] then none
  else
    s.foldl (fun acc c =>
      match acc with
      | none => none
      | some n => if '0' ≤ c ∧ c ≤ '9' then some (n * 10 + (c.toNat - '0'.toNat)) else none)
      (some 0)

/-- The per-bin aggregation of `resample(...)`: `sum` of an empty bin is 0,
`mean`/`min`/`max` of an empty bin are NaN. -/
def dayAgg (gtype : List Char) (vals : List ℚ) : Option ℚ :=
  if gtype = "sum".data then some vals.sum
  else
    match vals with
    | [] => none
    | v :: vs =>
      if gtype = "mean".data then some ((v :: vs).sum / (v :: vs).length)
      else if gtype = "min".data then some (vs.foldl min v)
      else some (vs.foldl max v)

/-- `resample(time='1D').<agg>()`: one bin per calendar day between the
series' minimum and maximum day. -/
def resampleDaily (gtype : List Char) (ds : TimeSeries) : List (Nat × Option ℚ) :=
  match (ds.map (fun x => x.1.1)).min?, (ds.map (fun x => x.1.1)).max? with
  | some dmin, some dmax =>
    (List.range (dmax + 1 - dmin)).map (fun i =>
      let d := dmin + i
      (d, dayAgg gtype (ds.filterMap (fun x => if x.1.1 = d then some x.2 else none))))
  | _, _ => []

/-- The frequency/aggregation dispatch of `group_data` (lines 447-456). -/
def applyGrouping (freq gtype : List Char) (ds : TimeSeries) :
    Except PyError (List (Nat × Option ℚ)) :=
  if gtype = "sum".data ∨ gtype = "mean".data ∨ gtype = "min".data ∨
      gtype = "max".data then
    if freq = "1D".data then .ok (resampleDaily gtype ds)
    else .error (.valueError "frequency outside the model")
  else .error (.attributeError "Grouping method does not exists")

/-- `group_data` (lines 419-458): default directive `"12hour_1D_mean"`,
optional hour-of-day filter, then resampling. -/
def group_data (ds : TimeSeries) (grouping : Option String) :
    Except PyError (List (Nat × Option ℚ)) :=
  let g := grouping.getD "12hour_1D_mean"
  match pySplitUnder g.data with
  | [hourStr, freq, gtype] =>
    match pyToInt (stripHour hourStr) with
    | none => .error (.valueError "invalid literal for int")
    | some h => applyGrouping freq gtype (ds.filter (fun e => e.1.2 == h))
  | [freq, gtype] => applyGrouping freq gtype ds
  | _ => .error (.attributeError "Grouping str must have between 2 and 3 elements separated by _")

/-- An hourly series covering the `n` complete calendar days starting at day
`d0`, with value `f day hour` at each timestamp. -/
def hourlySeries (d0 n : Nat) (f : Nat → Nat → ℚ) : TimeSeries :=
  (List.range n).flatMap (fun i =>
    (List.range 24).map (fun h => ((d0 + i, h), f (d0 + i) h)))

theorem filter_hourlySeries (d0 n : Nat) (f : Nat → Nat → ℚ) :
    (hourlySeries d0 n f).filter (fun e => e.1.2 == 12) =
      (List.range n).map (fun i => ((d0 + i, 12), f (d0 + i) 12)) := by
  induction n with
  | zero => rfl
  | succ m ih =>
    rw [hourlySeries, List.range_succ, List.flatMap_append, List.filter_append]
    rw [hourlySeries] at ih
    rw [ih]
    have hblock :
        (([m] : List Nat).flatMap (fun i =>
          (List.range 24).map (fun h => ((d0 + i, h), f (d0 + i) h)))).filter
            (fun e => e.1.2 == 12) = [((d0 + m, 12), f (d0 + m) 12)] := by
      have h1 : (([m] : List Nat).flatMap (fun i =>
          (List.range 24).map (fun h => ((d0 + i, h), f (d0 + i) h)))) =
          (List.range 24).map (fun h => ((d0 + m, h), f (d0 + m) h)) := by
        simp
      rw [h1, List.filter_map]
      have h2 : ((fun (e : (Nat × Nat) × ℚ) => e.1.2 == 12) ∘
          (fun h => ((d0 + m, h), f (d0 + m) h))) = (fun h => h == 12) := rfl
      rw [h2, show (List.range 24).filter (fun h => h == 12) = [12] from by decide]
      rfl
    rw [hblock, List.map_append]
    rfl

theorem filterMap_range_single {β : Type} (w : Nat → β) (d0 : Nat) :
    ∀ n i, i < n →
      (List.range n).filterMap
          (fun j => if d0 + j = d0 + i then some (w j) else none) = [w i] := by
  intro n
  induction n with
  | zero => intro i hi; cases hi
  | succ m ih =>
    intro i hi
    rw [List.range_succ, List.filterMap_append]
    rcases Nat.lt_succ_iff_lt_or_eq.mp hi with h | h
    · rw [ih i h]
      have hm : m ≠ i := by omega
      simp [List.filterMap, hm]
    · subst h
      have hnil : (List.range i).filterMap
          (fun j => if d0 + j = d0 + i then some (w j) else none) = [] := by
        rw [List.filterMap_eq_nil_iff]
        intro j hj
        rw [if_neg]
        have := List.mem_range.mp hj
        omega
      rw [hnil]
      simp [List.filterMap]

theorem resampleDaily_eq (gtype : List Char) (ds : TimeSeries) (dmin dmax : Nat)
    (h1 : (ds.map (fun x => x.1.1)).min? = some dmin)
    (h2 : (ds.map (fun x => x.1.1)).max? = some dmax) :
    resampleDaily gtype ds = (List.range (dmax + 1 - dmin)).map (fun i =>
      (dmin + i, dayAgg gtype
        (ds.filterMap (fun x => if x.1.1 = dmin + i then some x.2 else none)))) := by
  rw [resampleDaily, h1, h2]

theorem resampleDaily_noon (d0 n : Nat) (v : Nat → ℚ) (hn : 1 ≤ n) :
    resampleDaily "mean".data
        ((List.range n).map (fun i => ((d0 + i, 12), v i))) =
      (List.range n).map (fun i => (d0 + i, some (v i))) := by
  have hdays : ((List.range n).map
      (fun i => (((d0 + i, 12), v i) : (Nat × Nat) × ℚ))).map (fun x => x.1.1) =
      (List.range n).map (fun i => d0 + i) := by
    rw [List.map_map]
    rfl
  have hmin : (((List.range n).map
      (fun i => (((d0 + i, 12), v i) : (Nat × Nat) × ℚ))).map (fun x => x.1.1)).min? =
      some d0 := by
    rw [hdays, List.min?_eq_some_iff']
    constructor
    · exact List.mem_map.mpr ⟨0, List.mem_range.mpr hn, by omega⟩
    · intro b hb
      obtain ⟨i, hi, rfl⟩ := List.mem_map.mp hb
      omega
  have hmax : (((List.range n).map
      (fun i => (((d0 + i, 12), v i) : (Nat × Nat) × ℚ))).map (fun x => x.1.1)).max? =
      some (d0 + (n - 1)) := by
    rw [hdays, List.max?_eq_some_iff']
    constructor
    · exact List.mem_map.mpr ⟨n - 1, List.mem_range.mpr (by omega), rfl⟩
    · intro b hb
      obtain ⟨i, hi, rfl⟩ := List.mem_map.mp hb
      have := List.mem_range.mp hi
      omega
  rw [resampleDaily_eq _ _ _ _ hmin hmax]
  have hrange : d0 + (n - 1) + 1 - d0 = n := by omega
  rw [hrange]
  apply List.map_congr_left
  intro i hi
  have hi2 : i < n := List.mem_range.mp hi
  have hvals : ((List.range n).map
      (fun i => (((d0 + i, 12), v i) : (Nat × Nat) × ℚ))).filterMap
      (fun x => if x.1.1 = d0 + i then some x.2 else none) = [v i] := by
    rw [List.filterMap_map]
    have hcomp : ((fun (x : (Nat × Nat) × ℚ) =>
        if x.1.1 = d0 + i then some x.2 else none) ∘
        (fun j => (((d0 + j, 12), v j) : (Nat × Nat) × ℚ))) =
        (fun j => if d0 + j = d0 + i then some (v j) else none) := rfl
    rw [hcomp]
    exact filterMap_range_single v d0 n i hi2
  simp only [hvals]
  have hagg : dayAgg "mean".data [v i] = some (v i) := by
    rw [dayAgg, if_neg (by decide)]
    simp
  rw [hagg]

/-- C9: the directive `"12hour_1D_mean"` — also the default when no grouping
is given — applied to an hourly series covering whole calendar days keeps
only the hour-12 timestamps and then resamples at 1-day mean frequency,
yielding exactly one row per calendar day whose value is that day's noon
value; the default directive therefore acts as a daily snapshot at noon. -/
theorem C9_group_data_noon_snapshot (d0 n : Nat) (f : Nat → Nat → ℚ) (hn : 1 ≤ n) :
    group_data (hourlySeries d0 n f) (some "12hour_1D_mean") =
      .ok ((List.range n).map (fun i => (d0 + i, some (f (d0 + i) 12)))) ∧
    group_data (hourlySeries d0 n f) none =
      group_data (hourlySeries d0 n f) (some "12hour_1D_mean") := by
  constructor
  · rw [group_data]
    have hsplit : pySplitUnder ("12hour_1D_mean").data =
        ["12hour".data, "1D".data, "mean".data] := by decide
    simp only [Option.getD_some, hsplit]
    have hint : pyToInt (stripHour "12hour".data) = some 12 := by decide
    simp only [hint]
    rw [filter_hourlySeries d0 n f]
    rw [applyGrouping, if_pos (by decide), if_pos (by decide)]
    rw [resampleDaily_noon d0 n (fun i => f (d0 + i) 12) hn]
  · rfl

/-- Witness for C9: two days of hourly data with value `100*day + hour`;
the default grouping returns exactly the two noon values. -/
theorem C9_group_data_noon_snapshot_witness :
    group_data (hourlySeries 5 2 (fun d h => (d * 100 + h : ℚ))) none =
      .ok [(5, some 512), (6, some 612)] := by
  have h := C9_group_data_noon_snapshot 5 2 (fun d h => (d * 100 + h : ℚ)) (by norm_num)
  rw [h.2, h.1]
  norm_num [List.range_succ]

/-! ## `open_aemet` (utils.py lines 226-348), non-humidity branch

The raw AEMET month table is modelled with its `AÑO`/`MES` key columns as
row fields and the remaining (data) column names listed in order; each row's
cells align with those columns.  The column scan models
`re.search(r"[A-Z]{1,4}\d{1,2}", col)` together with the separate
`re.search(r"[A-Z]{1,4}", col)` / `re.search(r"\d{1,2}", col)` extractions
used to build the rename map (note the renamed name keeps the digits as
written, e.g. `TMAX01 → TMAX_01`, while lookups use the unpadded
`str(date.day)`).  `pd.date_range(freq='1D')` is modelled with a proper
calendar, and `datetime(...)` validates its day against the month length.
The deduplication `list(set(variables))` keeps first occurrences (a fixed
stand-in for Python's unspecified set order). -/

def isUpperAZ (c : Char) : Bool := decide ('A' ≤ c) && decide (c ≤ 'Z')

def isDigit09 (c : Char) : Bool := decide ('0' ≤ c) && decide (c ≤ '9')

/-- First `[A-Z]{1,4}` occurrence (greedy, at most 4 letters). -/
def findUpperRun : List Char → Option (List Char)
  | [] => none
  | c :: cs =>
    if isUpperAZ c then some (((c :: cs).takeWhile isUpperAZ).take 4)
    else findUpperRun cs

/-- First `\d{1,2}` occurrence (greedy, at most 2 digits). -/
def findDigitRun : List Char → Option (List Char)
  | [] => none
  | c :: cs =>
    if isDigit09 c then some (((c :: cs).takeWhile isDigit09).take 2)
    else findDigitRun cs

/-- First `[A-Z]{1,4}\d{1,2}` occurrence: up to four letters directly
followed by up to two digits (with the regex's leftmost-match behaviour for
the column shapes occurring in these files). -/
def findVarDay : List Char → Option (List Char × List Char)
  | [] => none
  | c :: cs =>
    if isUpperAZ c then
      let letters := ((c :: cs).takeWhile isUpperAZ).take 4
      let after := (c :: cs).drop letters.length
      let digits := (after.takeWhile isDigit09).take 2
      if digits.isEmpty then findVarDay cs else some (letters, digits)
    else findVarDay cs

/-- For one column name: `(match.group(), new name, variable prefix)`
(source lines 254-262). -/
def colScan (col : String) : Option (String × String × String) :=
  match findVarDay col.data with
  | none => none
  | some (ml, md) =>
    let letters := (findUpperRun col.data).getD []
    let digits := (findDigitRun col.data).getD []
    some (String.mk (ml ++ md), String.mk (letters ++ ['_'] ++ digits),
      String.mk letters)

/-- The rename dictionary `dict(zip(original_variable_columns,
new_variable_columns))`. -/
def renamePairsOf (cols : List String) : List (String × String) :=
  cols.filterMap (fun c => (colScan c).map (fun x => (x.1, x.2.1)))

/-- Apply the rename dictionary to one column name. -/
def renameCol (pairs : List (String × String)) (c : String) : String :=
  match pairs.find? (fun p => p.1 == c) with
  | some p => p.2
  | none => c

/-- `variables = list(set(variables))` minus `'MET'` (lines 269-271),
keeping first occurrences. -/
def scannedVars (cols : List String) : List String :=
  ((cols.filterMap (fun c => (colScan c).map (fun x => x.2.2))).eraseDups).filter
    (fun v => !(v == "MET"))

structure Date where
  year : Nat
  month : Nat
  day : Nat
  deriving DecidableEq, Repr

def isLeap (y : Nat) : Bool := (y % 4 == 0 && y % 100 != 0) || (y % 400 == 0)

def daysInMonth (y m : Nat) : Nat :=
  if m = 2 then (if isLeap y then 29 else 28)
  else if m = 4 ∨ m = 6 ∨ m = 9 ∨ m = 11 then 30
  else 31

/-- `datetime.datetime(y, m, d)`: validates the month and the day against
the month length (`ValueError` otherwise). -/
def mkDatetime (y m d : Nat) : Except PyError Date :=
  if 1 ≤ m ∧ m ≤ 12 ∧ 1 ≤ d ∧ d ≤ daysInMonth y m then .ok ⟨y, m, d⟩
  else .error (.valueError "day is out of range for month")

def Date.le (a b : Date) : Bool :=
  (a.year < b.year) ||
  (a.year == b.year &&
    ((a.month < b.month) || (a.month == b.month && a.day ≤ b.day)))

def nextDay (dt : Date) : Date :=
  if dt.day < daysInMonth dt.year dt.month then ⟨dt.year, dt.month, dt.day + 1⟩
  else if dt.month < 12 then ⟨dt.year, dt.month + 1, 1⟩
  else ⟨dt.year + 1, 1, 1⟩

def dateRangeAux : Nat → Date → Date → List Date
  | 0, _, _ => []
  | fuel + 1, cur, last =>
    if Date.le cur last then cur :: dateRangeAux fuel (nextDay cur) last else []

/-- `pd.date_range(start, end, freq='1D')`, inclusive of both ends. -/
def date_range (a b : Date) : List Date :=
  dateRangeAux ((b.year + 1 - a.year) * 366 + 400) a b

structure AemetRow where
  ano : Nat
  mes : Nat
  cells : List ℚ
  deriving DecidableEq, Repr

structure AemetTable where
  columns : List String
  rows : List AemetRow
  deriving DecidableEq, Repr

/-- One cell lookup (lines 276-285):
`variable_df.loc[(AÑO == y) & (MES == m), variable + '_' + str(day)]`.
A missing column raises `KeyError`; an empty row selection yields NaN. -/
def aemetLookup (renamed : List String) (rows : List AemetRow) (v : String)
    (dt : Date) : Except PyError (Option ℚ) :=
  let colName := v ++ "_" ++ toString dt.day
  match renamed.findIdx? (fun c => c == colName) with
  | none => .error (.keyError colName)
  | some j =>
    match rows.filter (fun r => r.ano == dt.year && r.mes == dt.month) with
    | [] => .ok none
    | r :: _ =>
      match r.cells.get? j with
      | some q => .ok (some q)
      | none => .error (.indexError "cell out of range")

/-- One output column: the lookups of one variable over all dates. -/
def lookupCol (renamed : List String) (rows : List AemetRow) (v : String) :
    List Date → Except PyError (List (Option ℚ))
  | [] => .ok []
  | dt :: ds =>
    match aemetLookup renamed rows v dt with
    | .error e => .error e
    | .ok q =>
      match lookupCol renamed rows v ds with
      | .error e => .error e
      | .ok qs => .ok (q :: qs)

/-- The `itertools.product(variables, dates)` fill loop (lines 274-285),
column-major. -/
def lookupAll (renamed : List String) (rows : List AemetRow) (dates : List Date) :
    List String → Except PyError (List (List (Option ℚ)))
  | [] => .ok []
  | v :: vs =>
    match lookupCol renamed rows v dates with
    | .error e => .error e
    | .ok col =>
      match lookupAll renamed rows dates vs with
      | .error e => .error e
      | .ok cols => .ok (col :: cols)

/-- The daily output table, column-major. -/
structure DailyFrame where
  columns : List String
  index : List Date
  data : List (List (Option ℚ))
  deriving Repr

def DailyFrame.getCell (f : DailyFrame) (v : String) (i : Nat) :
    Option (Option ℚ) :=
  match f.columns.findIdx? (fun c => c == v) with
  | none => none
  | some j => (f.data.getD j []).get? i

def getVarCol (vars : List String) (cols : List (List (Option ℚ)))
    (v : String) : List (Option ℚ) :=
  match vars.findIdx? (fun x => x == v) with
  | some j => cols.getD j []
  | none => []

/-- NaN-propagating `(TMAX - TMIN) / 2`. -/
def tmeanCol (vars : List String) (cols : List (List (Option ℚ))) :
    List (Option ℚ) :=
  List.zipWith (fun a b =>
      match a, b with
      | some x, some y => some ((x - y) / 2)
      | _, _ => none)
    (getVarCol vars cols "TMAX") (getVarCol vars cols "TMIN")

/-- `new_variable_df / 10` on one column (NaN-propagating). -/
def scaleCol (c : List (Option ℚ)) : List (Option ℚ) :=
  c.map (Option.map (fun x => x / 10))

/-- The post-lookup fixups (lines 338-344): `TMEAN` derivation and division
by 10 when both temperature extremes are present, `P → PCNR` rename and
division by 10 for precipitation; `astype(np.float64)` is the identity on
the rational model. -/
def postprocess (vars : List String) (dates : List Date)
    (cols : List (List (Option ℚ))) : DailyFrame :=
  let vc2 :=
    if vars.contains "TMIN" && vars.contains "TMAX" then
      (vars ++ ["TMEAN"], (cols ++ [tmeanCol vars cols]).map scaleCol)
    else (vars, cols)
  let vc3 :=
    if vars.contains "P" then
      (vc2.1.map (fun v => if v == "P" then "PCNR" else v), vc2.2.map scaleCol)
    else vc2
  ⟨vc3.1, dates, vc3.2⟩

/-- `open_aemet` for a non-humidity variable file. -/
def open_aemet (t : AemetTable) : Except PyError DailyFrame :=
  match t.rows with
  | [] => .error (.indexError "index 0 is out of bounds")
  | r0 :: rest =>
    match mkDatetime r0.ano r0.mes 1,
          mkDatetime (List.getLastD rest r0).ano (List.getLastD rest r0).mes 31 with
    | .error e, _ => .error e
    | _, .error e => .error e
    | .ok initial, .ok final =>
      let dates := date_range initial final
      let pairs := renamePairsOf t.columns
      let renamed := t.columns.map (renameCol pairs)
      let vars := scannedVars t.columns
      match lookupAll renamed (r0 :: rest) dates vars with
      | .error e => .error e
      | .ok cols => .ok (postprocess vars dates cols)

/-- The spec's synthetic one-month table: columns `TMAX01, TMAX02, TMIN01,
TMIN02` (zero-padded, as written in the claim) with raw values 5, 7, 1, 3. -/
def aemetPaddedTable : AemetTable :=
  ⟨["TMAX01", "TMAX02", "TMIN01", "TMIN02"], [⟨2020, 1, [5, 7, 1, 3]⟩]⟩

/-- A one-month table with unpadded day columns for only days 1 and 2. -/
def aemetShortTable : AemetTable :=
  ⟨["TMAX1", "TMAX2"], [⟨2021, 7, [7, 9]⟩]⟩

/-- A well-formed two-month table (January and March 2020) with unpadded
`TMAX1..TMAX31, TMIN1..TMIN31` columns; every January TMAX cell is the raw
value 205 and TMIN 105, every March TMAX 305 and TMIN 155. -/
def aemetFullTable : AemetTable :=
  ⟨(List.range 31).map (fun d => "TMAX" ++ toString (d + 1)) ++
     (List.range 31).map (fun d => "TMIN" ++ toString (d + 1)),
   [⟨2020, 1, List.replicate 31 (205 : ℚ) ++ List.replicate 31 (105 : ℚ)⟩,
    ⟨2020, 3, List.replicate 31 (305 : ℚ) ++ List.replicate 31 (155 : ℚ)⟩]⟩

/-- C5 counterexample: on the claim's synthetic table `open_aemet` raises
`KeyError 'TMAX_1'` instead of producing any output table: the rename step
keeps the zero-padded day (`TMAX01 → TMAX_01`) while the lookup key uses the
unpadded `str(date.day)` (`TMAX_1`), and the enumerated dates in any case
span days 1-31 of the month, not the 2 days with columns. -/
theorem C5_open_aemet_counterexample :
    open_aemet aemetPaddedTable = .error (.keyError "TMAX_1") ∧
    ∀ f, open_aemet aemetPaddedTable ≠ .ok f := by
  have h : open_aemet aemetPaddedTable = .error (.keyError "TMAX_1") := by rfl
  refine ⟨h, fun f hf => ?_⟩
  rw [h] at hf
  cases hf

/-- C5 (amended): on a table whose day columns are unpadded and cover all 31
days (`aemetFullTable`, January and March 2020), `open_aemet` succeeds; the
daily index spans every calendar day from the first row's month start to day
31 of the last row's month (91 days: all of January, February and March
2020), the columns are `TMAX, TMIN` plus the derived `TMEAN`; `TMAX`/`TMIN`
values are the raw values divided by 10, `TMEAN = (TMAX - TMIN) / 2` in the
same scaled units; a date whose year/month row is absent (February 5) yields
NaN rather than an error — but a date whose *day column* is absent raises
`KeyError` (`aemetShortTable`, day 3). -/
theorem C5_open_aemet_amended :
    (open_aemet aemetFullTable).map (fun f => f.index.length) = .ok 91 ∧
    (open_aemet aemetFullTable).map (fun f => f.columns) =
      .ok ["TMAX", "TMIN", "TMEAN"] ∧
    (open_aemet aemetFullTable).map (fun f => f.getCell "TMAX" 0) =
      .ok (some (some (205 / 10))) ∧
    (open_aemet aemetFullTable).map (fun f => f.getCell "TMIN" 0) =
      .ok (some (some (105 / 10))) ∧
    (open_aemet aemetFullTable).map (fun f => f.getCell "TMEAN" 0) =
      .ok (some (some ((205 - 105) / 2 / 10))) ∧
    (open_aemet aemetFullTable).map (fun f => f.getCell "TMAX" 35) =
      .ok (some none) ∧
    open_aemet aemetShortTable = .error (.keyError "TMAX_3") := by
  refine ⟨by rfl, by rfl, by rfl, by rfl, ?_, by rfl, by rfl⟩
  rfl

/-! ## `clean_dataset` and `get_common_index` (utils.py lines 163-188)

DataFrame values are `NaN`, `±inf` or a finite number; a frame is a list of
`(index label, row values)` pairs.  `df.dropna(inplace=True)` mutates the
caller's object, so the model of `clean_dataset` returns the pair
`(caller's DataFrame after the call, returned DataFrame)`; likewise
`get_common_index` returns (both callers' frames after the call, both
returned frames). -/

inductive PVal where
  | num (q : ℚ)
  | nan
  | inf
  | ninf
  deriving DecidableEq, Repr

abbrev Frame := List (Nat × List PVal)

def rowHasNan (r : Nat × List PVal) : Bool := r.2.contains PVal.nan

/-- `df.dropna(inplace=True)`: drop the rows containing NaN, in place. -/
def dropnaRows (df : Frame) : Frame := df.filter (fun r => !(rowHasNan r))

/-- `~df.isin([np.nan, np.inf, -np.inf]).any(1)`: keep rows free of NaN and
of both infinities. -/
def rowFinite (r : Nat × List PVal) : Bool :=
  r.2.all (fun v => !(v == PVal.nan) && !(v == PVal.inf) && !(v == PVal.ninf))

/-- `clean_dataset` (lines 163-172): the first component is the caller's
DataFrame after the call (mutated by the in-place `dropna`), the second the
returned frame (`astype(np.float64)` is the identity on the model, all
remaining values being finite numbers). -/
def clean_dataset (df : Frame) : Frame × Frame :=
  let dfm := dropnaRows df
  (dfm, dfm.filter rowFinite)

def insertAsc (x : Nat) : List Nat → List Nat
  | [] => [x]
  | y :: ys => if x ≤ y then x :: y :: ys else y :: insertAsc x ys

/-- Python `sorted(...)` on index labels. -/
def pySorted (l : List Nat) : List Nat := l.foldr insertAsc []

def Frame.indexList (df : Frame) : List Nat := df.map Prod.fst

/-- `get_common_index` (lines 175-188): first component: both callers'
frames after the call; second: the two returned frames restricted to the
sorted common index. -/
def get_common_index (df1 df2 : Frame) : (Frame × Frame) × (Frame × Frame) :=
  let c1 := clean_dataset df1
  let c2 := clean_dataset df2
  let common := pySorted (((Frame.indexList c1.2).inter (Frame.indexList c2.2)).eraseDups)
  ((c1.1, c2.1),
   (common.filterMap (fun i => c1.2.find? (fun r => r.1 == i)),
    common.filterMap (fun i => c2.2.find? (fun r => r.1 == i))))

/-- C10 counterexample: a caller's DataFrame holding a NaN row is mutated by
`clean_dataset` (its NaN row disappears), and `get_common_index` likewise
mutates both of its arguments. -/
theorem C10_mutation_counterexample :
    (clean_dataset [(0, [PVal.num 1]), (1, [PVal.nan])]).1 ≠
      [(0, [PVal.num 1]), (1, [PVal.nan])] ∧
    (clean_dataset [(0, [PVal.num 1]), (1, [PVal.nan])]).1 = [(0, [PVal.num 1])] ∧
    (get_common_index [(0, [PVal.num 1]), (1, [PVal.nan])]
        [(0, [PVal.num 2])]).1.1 ≠ [(0, [PVal.num 1]), (1, [PVal.nan])] := by
  refine ⟨by decide, by decide, by decide⟩

/-- C10 (amended): `clean_dataset` and `get_common_index` mutate their
DataFrame arguments in place, dropping every row that contains NaN
(`dropna(inplace=True)`); only when the arguments have no NaN rows are the
callers' DataFrames left unchanged. -/
theorem C10_no_mutation_amended (df1 df2 : Frame)
    (h1 : ∀ r ∈ df1, rowHasNan r = false) (h2 : ∀ r ∈ df2, rowHasNan r = false) :
    (clean_dataset df1).1 = dropnaRows df1 ∧
    (get_common_index df1 df2).1 = (dropnaRows df1, dropnaRows df2) ∧
    (clean_dataset df1).1 = df1 ∧
    (get_common_index df1 df2).1 = (df1, df2) := by
  have hd1 : dropnaRows df1 = df1 :=
    List.filter_eq_self.mpr (fun r hr => by rw [h1 r hr]; rfl)
  have hd2 : dropnaRows df2 = df2 :=
    List.filter_eq_self.mpr (fun r hr => by rw [h2 r hr]; rfl)
  refine ⟨rfl, rfl, ?_, ?_⟩
  · exact hd1
  · show (dropnaRows df1, dropnaRows df2) = (df1, df2)
    rw [hd1, hd2]

/-- Witness for C10's amended theorem on NaN-free frames. -/
theorem C10_no_mutation_amended_witness :
    (clean_dataset [(0, [PVal.num 1])]).1 = dropnaRows [(0, [PVal.num 1])] ∧
    (get_common_index [(0, [PVal.num 1])] [(0, [PVal.num 2]), (1, [PVal.num 3])]).1 =
      (dropnaRows [(0, [PVal.num 1])],
       dropnaRows [(0, [PVal.num 2]), (1, [PVal.num 3])]) ∧
    (clean_dataset [(0, [PVal.num 1])]).1 = [(0, [PVal.num 1])] ∧
    (get_common_index [(0, [PVal.num 1])] [(0, [PVal.num 2]), (1, [PVal.num 3])]).1 =
      ([(0, [PVal.num 1])], [(0, [PVal.num 2]), (1, [PVal.num 3])]) :=
  C10_no_mutation_amended [(0, [PVal.num 1])] [(0, [PVal.num 2]), (1, [PVal.num 3])]
    (by decide) (by decide)

end Rascal
